import Mathlib

/-!
Verification of the TF-TRT node conversion pipeline
(`tensorflow/contrib/tensorrt/convert/convert_nodes.cc`).

Shallow embedding: TensorRT dimension vectors (`nvinfer1::Dims`) are
modelled as `List Int` (the `nbDims` field is the list length, `d` the
entries); statuses are an explicit error-code type.
-/

namespace TfTrt

/-- Error categories of `tensorflow::Status`, as used by the converter. -/
inductive ErrCode where
  | invalidArgument
  | unimplemented
  | notFound
  | alreadyExists
  | internal
  | outOfRange
  | failedPrecondition
  deriving DecidableEq, Repr

/-- `tensorflow::Status`: OK or an error code (messages are not modelled). -/
inductive Status where
  | ok
  | err (code : ErrCode)
  deriving DecidableEq, Repr

/-- `HasStaticShape`: false if some axis is negative (dynamic). A negative
`nbDims` cannot arise in the list model. -/
def hasStaticShape (dims : List Int) : Bool :=
  dims.all (fun d => !(d < 0))

/-- `TrtDimsNumElements`: product of the axes; 0 when the rank is 0. -/
def trtDimsNumElements (dims : List Int) : Int :=
  if dims.length = 0 then 0 else dims.prod

/-- `DimsEqual`: identical rank and identical per-axis sizes. -/
def dimsEqual (l r : List Int) : Bool := l == r

/-- Per-axis pairwise broadcast feasibility loop of
`TensorRTGetBroadcastShape`: each aligned pair must be equal or have a 1
on one side. -/
def broadcastFeasible : List Int → List Int → Bool
  | [], [] => true
  | a :: as, b :: bs =>
      (a == b || a == 1 || b == 1) && broadcastFeasible as bs
  | _, _ => false

/-- `TensorRTGetBroadcastShape`: right-align both operand shapes into a
buffer of the maximum combined rank (a live tensor contributes its rank
plus one for the implicit batch dimension), padding with 1s; force the
batch slot to -1 for tensor operands; fail if a tensor operand does not
reach the maximum combined rank or some aligned axis pair is
incompatible; on success return both buffers with the batch slot
stripped.  `none` models the `false` return. -/
def tensorRTGetBroadcastShape (operand_l : List Int) (operand_l_is_tensor : Bool)
    (operand_r : List Int) (operand_r_is_tensor : Bool) :
    Option (List Int × List Int) :=
  let l_d : Nat := if operand_l_is_tensor then operand_l.length + 1 else operand_l.length
  let r_d : Nat := if operand_r_is_tensor then operand_r.length + 1 else operand_r.length
  let max_d : Nat := max l_d r_d
  let l_s0 : List Int := List.replicate (max_d - operand_l.length) 1 ++ operand_l
  let r_s0 : List Int := List.replicate (max_d - operand_r.length) 1 ++ operand_r
  if operand_l_is_tensor && decide (max_d ≠ l_d) then none
  else
    let l_s := if operand_l_is_tensor then l_s0.set 0 (-1) else l_s0
    if operand_r_is_tensor && decide (max_d ≠ r_d) then none
    else
      let r_s := if operand_r_is_tensor then r_s0.set 0 (-1) else r_s0
      if broadcastFeasible l_s r_s then some (l_s.drop 1, r_s.drop 1)
      else none

/-- The broadcast resolver as the specification describes it: the maximum
combined rank counts a tensor operand's rank plus one; a tensor-tagged
operand whose rank-plus-one does not reach it fails; otherwise each shape
is right-aligned with 1-padding, a tensor operand's batch slot becomes an
explicit leading -1, per-axis NumPy compatibility is checked, and on
success the batch slot is stripped from both. -/
def broadcastShapeSpec (l : List Int) (lT : Bool) (r : List Int) (rT : Bool) :
    Option (List Int × List Int) :=
  let m : Nat := max (l.length + if lT then 1 else 0) (r.length + if rT then 1 else 0)
  let alignL : List Int :=
    if lT then -1 :: (List.replicate (m - 1 - l.length) 1 ++ l)
    else List.replicate (m - l.length) 1 ++ l
  let alignR : List Int :=
    if rT then -1 :: (List.replicate (m - 1 - r.length) 1 ++ r)
    else List.replicate (m - r.length) 1 ++ r
  if lT ∧ l.length + 1 < m then none
  else if rT ∧ r.length + 1 < m then none
  else if (alignL.zip alignR).all (fun p => p.1 == p.2 || p.1 == 1 || p.2 == 1) then
    some (alignL.drop 1, alignR.drop 1)
  else none

/-- `CreateSamePadding`, one spatial axis: total padding
`p = ((input-1)/stride)*stride + kernel - input` clamped below at 0,
split as `(p/2, p - p/2)`.  C++ `int` division truncates toward zero,
which is `Int.tdiv`. -/
def samePaddingAxis (stride kernel input : Int) : Int × Int :=
  let p0 : Int := (Int.tdiv (input - 1) stride) * stride + kernel - input
  let p : Int := if p0 > 0 then p0 else 0
  let left : Int := Int.tdiv p 2
  let right : Int := p - left
  (left, right)

/-- `CreateSamePadding` over all spatial axes (stride/kernel/input lists
are per-axis; the source asserts the lengths agree). -/
def createSamePadding (stride kernel input_dims : List Int) : List (Int × Int) :=
  (input_dims.zip (stride.zip kernel)).map
    (fun x => samePaddingAxis x.2.1 x.2.2 x.1)

/-- `tensorflow::DataType`, restricted to the cases the converter inspects. -/
inductive DataType where
  | DT_FLOAT
  | DT_HALF
  | DT_INT32
  | DT_INT8
  | DT_INT16
  | DT_UINT8
  | DT_OTHER
  deriving DecidableEq, Repr

/-- `nvinfer1::DataType`. -/
inductive TrtDataType where
  | kFLOAT
  | kHALF
  | kINT8
  | kINT32
  deriving DecidableEq, Repr

/-- `ConvertDType`: framework dtype to accelerator dtype; anything but
float/int8/half/int32 is InvalidArgument. -/
def convertDType : DataType → Except ErrCode TrtDataType
  | .DT_FLOAT => .ok .kFLOAT
  | .DT_INT8 => .ok .kINT8
  | .DT_HALF => .ok .kHALF
  | .DT_INT32 => .ok .kINT32
  | _ => .error .invalidArgument

/-- `TRT_ShapedWeights`: element type, accelerator dims (batch excluded),
and the backing buffer.  The buffer is modelled by its reinterpretation as
32-bit integers (`ivals`): every claim-relevant read of weight values in
the source goes through `static_cast<int*>(GetValues())`; floating-point
payloads are never inspected by the modelled control flow. -/
structure TRT_ShapedWeights where
  type_ : DataType
  shape_ : List Int
  ivals : List Int := []
  deriving DecidableEq, Repr

/-- `TRT_ShapedWeights::count()`. -/
def TRT_ShapedWeights.count (w : TRT_ShapedWeights) : Int :=
  trtDimsNumElements w.shape_

/-- A live `nvinfer1::ITensor` as the converter observes it: dims and the
assignable name (`getName`/`setName`).  Layer outputs start unnamed. -/
structure TrtTensor where
  dims : List Int
  name : Option String := none
  deriving DecidableEq, Repr

/-- `TRT_TensorOrWeights`: tagged union of a live tensor handle (with its
associated batch size) and a weight blob.  A weights-variant keeps the
header's default batch size -1 (the class definition lives in the header,
outside this translation unit). -/
inductive TRT_TensorOrWeights where
  | tensor (t : TrtTensor) (batchSize : Int)
  | weights (w : TRT_ShapedWeights)
  deriving DecidableEq, Repr

def TRT_TensorOrWeights.isTensor : TRT_TensorOrWeights → Bool
  | .tensor _ _ => true
  | .weights _ => false

def TRT_TensorOrWeights.isWeights : TRT_TensorOrWeights → Bool
  | .tensor _ _ => false
  | .weights _ => true

/-- `GetTrtDims`: the live tensor's reported dims or the weight's dims. -/
def TRT_TensorOrWeights.getTrtDims : TRT_TensorOrWeights → List Int
  | .tensor t _ => t.dims
  | .weights w => w.shape_

def TRT_TensorOrWeights.batchSize : TRT_TensorOrWeights → Int
  | .tensor _ b => b
  | .weights _ => -1

/-- `set_batch_size` (only ever called on the tensor variant). -/
def TRT_TensorOrWeights.setBatchSize : TRT_TensorOrWeights → Int → TRT_TensorOrWeights
  | .tensor t _, b => .tensor t b
  | .weights w, _ => .weights w

/-- `nvinfer1::ScaleMode`. -/
inductive ScaleMode where
  | kUNIFORM
  | kCHANNEL
  | kELEMENTWISE
  deriving DecidableEq, Repr

/-- `nvinfer1::UnaryOperation` (those the converter emits). -/
inductive UnaryTrtOp where
  | kNEG
  | kRECIP
  | kEXP
  | kLOG
  | kSQRT
  | kABS
  deriving DecidableEq, Repr

/-- `nvinfer1::ElementWiseOperation` (those in the binary op map). -/
inductive EltOp where
  | kSUM
  | kPROD
  | kSUB
  | kDIV
  | kMIN
  | kMAX
  deriving DecidableEq, Repr

/-- One call issued against the accelerator network
(`...->network()->addX(...)`); the trace of these calls is the observable
modification of the network under construction. -/
inductive NetLayer where
  | inputT (name : String)
  | shuffle
  | scale (mode : ScaleMode)
  | unary (op : UnaryTrtOp)
  | elementwise (op : EltOp)
  | constantL
  | fullyConnected
  | paddingL
  deriving DecidableEq, Repr

/-- Outcome of one op-converter invocation: the outputs pushed to
`params->outputs` together with the trace of network calls issued.  `err`
carries the trace issued before the failure; `nullDeref` marks an
execution that invoked a method through `params->converter` while that
pointer was null (validation-only mode); `fatal` marks a
`LOG(FATAL)`/`CHECK` abort. -/
inductive ConvResult where
  | ok (outputs : List TRT_TensorOrWeights) (net : List NetLayer)
  | err (code : ErrCode) (net : List NetLayer)
  | nullDeref (net : List NetLayer)
  | fatal (net : List NetLayer)
  deriving DecidableEq, Repr

/-- `Converter` state: fp16 flag, the batch-size invariant (initially the
unknown sentinel -1 — the member initializer is in the header, per the
specification's "initially unknown (negative sentinel)"), and the symbol
table `trt_tensors_`. -/
structure Converter where
  isFp16 : Bool
  batchSize : Int
  trtTensors : List (String × TRT_TensorOrWeights)
  deriving DecidableEq, Repr

def Converter.init (is_fp16 : Bool) : Converter := ⟨is_fp16, -1, []⟩

/-- `Converter::MaybeUpdateBatchSize`: OK iff either side is unknown
(negative) or the two are equal; adopt the candidate when the stored
value is unknown and the candidate is known. -/
def Converter.maybeUpdateBatchSize (c : Converter) (batch_size : Int) :
    Status × Converter :=
  if c.batchSize < 0 || batch_size < 0 || c.batchSize == batch_size then
    if c.batchSize < 0 && batch_size ≥ 0 then
      (.ok, { c with batchSize := batch_size })
    else (.ok, c)
  else (.err .invalidArgument, c)

/-- `Converter::AddTensorOrWeights`: stamp the converter's current batch
size onto tensor-typed values, then insert; AlreadyExists when the name is
already bound (`std::map::insert` does not overwrite). -/
def Converter.addTensorOrWeights (c : Converter) (name : String)
    (input : TRT_TensorOrWeights) : Status × Converter :=
  let input := if input.isTensor then input.setBatchSize c.batchSize else input
  if (c.trtTensors.lookup name).isSome then (.err .alreadyExists, c)
  else (.ok, { c with trtTensors := c.trtTensors ++ [(name, input)] })

/-- `Converter::GetTensorOrWeights`: NotFound when the name is unbound. -/
def Converter.getTensorOrWeights (c : Converter) (name : String) :
    Except ErrCode TRT_TensorOrWeights :=
  match c.trtTensors.lookup name with
  | none => .error .notFound
  | some v => .ok v

/-- Result of a converter helper that produces a value plus a trace of
network calls, or aborts the way `ConvResult` describes. -/
inductive StepResult (α : Type) where
  | ok (val : α) (net : List NetLayer)
  | err (code : ErrCode) (net : List NetLayer)
  | nullDeref (net : List NetLayer)
  | fatal (net : List NetLayer)
  deriving DecidableEq, Repr

/-- Sequence a helper step into a converter body; `pre` is the network
trace issued before the step, and the continuation receives the value
together with the whole trace issued so far. -/
def StepResult.andThen {α : Type} (pre : List NetLayer) (r : StepResult α)
    (f : α → List NetLayer → ConvResult) : ConvResult :=
  match r with
  | .ok v net => f v (pre ++ net)
  | .err c net => .err c (pre ++ net)
  | .nullDeref net => .nullDeref (pre ++ net)
  | .fatal net => .fatal (pre ++ net)

/-- `Converter::PrepareTensorForShape`: when every target axis is concrete
the element counts must agree; a tensor whose dims already match passes
through unchanged, otherwise a shuffle (reshape) layer is inserted; a
weight is materialized through a constant layer.  The `vo` flag records
that the call went through `params->converter` while that pointer was
null (validation-only mode), which is a null dereference. -/
def prepareTensorForShape (vo : Bool) (input : TRT_TensorOrWeights)
    (dims : List Int) : StepResult TrtTensor :=
  if vo then .nullDeref []
  else
    let can_check_shapes := dims.all (fun d => !(d == -1))
    if can_check_shapes &&
        !(trtDimsNumElements input.getTrtDims == trtDimsNumElements dims) then
      .err .invalidArgument []
    else
      match input with
      | .tensor t _ =>
          if dimsEqual t.dims dims then .ok t []
          else .ok ⟨dims, none⟩ [.shuffle]
      | .weights _ => .ok ⟨dims, none⟩ [.constantL]

/-- The non-batch dims requested by a Reshape: entries 1..count of the
shape weight's int buffer. -/
def reshapeDimsOfWeights (w : TRT_ShapedWeights) : List Int :=
  (List.range (w.count.toNat - 1)).map (fun i => w.ivals.getD (i + 1) 0)

/-- `ConvertReshape`: the second input must be a weight; an empty shape
weight is Unimplemented; then the conservative batch-dimension decision
table runs, rejecting with Unimplemented whenever the reshape could
possibly alter the batch dimension; in validation-only mode the converter
returns before touching the network, otherwise the reshape goes through
`PrepareTensorForShape`. -/
def convertReshape (vo : Bool) (inputs : List TRT_TensorOrWeights) : ConvResult :=
  match inputs with
  | [input_tensor, .weights weights] =>
      if weights.count == 0 then .err .unimplemented []
      else
        let input_batch_dim := input_tensor.batchSize
        let reshape_batch_dim := weights.ivals.getD 0 0
        let input_dims := input_tensor.getTrtDims
        let reshape_dims := reshapeDimsOfWeights weights
        let reshape_may_change_batch_dim :=
          if input_batch_dim > 0 then
            if reshape_batch_dim == -1 then
              !(hasStaticShape input_dims) ||
                !(trtDimsNumElements reshape_dims == trtDimsNumElements input_dims)
            else !(reshape_batch_dim == input_batch_dim)
          else if hasStaticShape input_dims then
            !(hasStaticShape reshape_dims) ||
              !(trtDimsNumElements reshape_dims == trtDimsNumElements input_dims)
          else true
        if reshape_may_change_batch_dim then .err .unimplemented []
        else if vo then .ok [] []
        else
          StepResult.andThen [] (prepareTensorForShape vo input_tensor reshape_dims)
            (fun t net => .ok [.tensor t (-1)] net)
  | _ => .err .invalidArgument []

/-- A framework `NodeDef` restricted to the fields the embedded converters
read: name, operator, inputs, and the attributes `T`, `transpose_a`,
`transpose_b`.  `TFAttrs::at` on a missing key is a process abort in the
source; the record models a node that carries the attributes its operator
requires. -/
structure NodeDef where
  name : String
  op : String
  input : List String
  tAttr : DataType := .DT_FLOAT
  transposeA : Bool := false
  transposeB : Bool := false
  deriving DecidableEq, Repr

/-- `Converter::TransposeTensor`: the permutation (batch included) must
have length rank+1 and must fix the batch slot; realized as one shuffle
layer whose output carries the permuted dims (the trailing identity
reshape forwards per-axis sizes).  A negative permutation entry is
undefined behaviour in the source (out-of-bounds read); `toNat` clamps. -/
def transposeTensor (vo : Bool) (t : TrtTensor) (order_with_batch_dim : List Int) :
    StepResult TrtTensor :=
  if vo then .nullDeref []
  else if order_with_batch_dim.length ≠ t.dims.length + 1 then
    .err .invalidArgument []
  else if order_with_batch_dim.getD 0 0 ≠ 0 then
    .err .unimplemented []
  else
    let newDims := (List.range t.dims.length).map
      (fun i => t.dims.getD (order_with_batch_dim.getD (i + 1) 0 - 1).toNat 0)
    .ok ⟨newDims, none⟩ [.shuffle]

/-- `ConvertFP32ToFP16`: a fresh half-precision weight of the same shape
(numeric contents are down-cast element-wise and never re-inspected by the
modelled control flow). -/
def convertFP32ToFP16 (weights_src : TRT_ShapedWeights) : TRT_ShapedWeights :=
  { weights_src with type_ := .DT_HALF }

/-- `UnaryCompute`: per-element folding over a weight buffer into a fresh
buffer of the same shape and type; only float and half storage is
supported.  The transformed numeric contents are not modelled (no claim
reads them). -/
def unaryCompute (iweights : TRT_ShapedWeights) : Except ErrCode TRT_ShapedWeights :=
  match iweights.type_ with
  | .DT_FLOAT => .ok iweights
  | .DT_HALF => .ok iweights
  | _ => .error .unimplemented

/-- Scale-mode selection of `BinaryTensorOpWeight`: uniform for a single
scalar weight; otherwise the weight shape is compared to the tensor shape
with the batch dimension conceptually stripped (a weight of rank rank+1
must have leading axis 1), yielding per-element, all-ones per-channel, or
per-channel-with-transpose (`permutation_flag = true`) when the weight is
rank 1 matching the tensor's last axis. -/
def binaryScaleMode (dims_t : List Int) (weights : TRT_ShapedWeights) :
    Except ErrCode (ScaleMode × Bool) :=
  if weights.count == 1 then .ok (.kUNIFORM, false)
  else
    let stripped : Except ErrCode (List Int) :=
      if weights.shape_.length = dims_t.length + 1 then
        if weights.shape_.getD 0 0 == 1 then .ok weights.shape_.tail
        else .error .invalidArgument
      else .ok weights.shape_
    match stripped with
    | .error e => .error e
    | .ok dims_w =>
        if dims_w.length = dims_t.length ∧ dims_w.getD 0 0 == dims_t.getD 0 0 then
          if (List.range (dims_w.length - 1)).all
              (fun i => dims_w.getD (i + 1) 0 == dims_t.getD (i + 1) 0) then
            .ok (.kELEMENTWISE, false)
          else if (List.range (dims_w.length - 1)).all
              (fun i => dims_w.getD (i + 1) 0 == 1) then
            .ok (.kCHANNEL, false)
          else .error .invalidArgument
        else if dims_w.length = 1 ∧ dims_w.getD 0 0 == dims_t.getD (dims_t.length - 1) 0 then
          .ok (.kCHANNEL, true)
        else .error .invalidArgument

/-- `BinaryTensorOpWeight`: the scale-layer path for tensor-op-constant.
Restricted to Sub/Add/Mul/Div/RealDiv; weight dtype must convert; the
tensor must have rank 3 (`addScale` requirement); a scale mode is
selected; with `permutation_flag` the last axis is transposed into the
channel slot first; `is_fp16` (a converter dereference) triggers weight
down-cast; shift/scale weights are prepared per operator — negation or
reciprocal folded into the constant, or a unary layer on the tensor when
the operands were swapped; one scale layer is emitted and the transpose
undone. -/
def binaryTensorOpWeight (nodeOp : String) (isFp16 : Bool) (vo : Bool)
    (tensor : TrtTensor) (weights : TRT_ShapedWeights)
    (swapped_inputs : Bool) : ConvResult :=
  if ¬ (nodeOp = "Sub" ∨ nodeOp = "Add" ∨ nodeOp = "Mul" ∨ nodeOp = "Div" ∨
      nodeOp = "RealDiv") then
    .err .unimplemented []
  else
    match convertDType weights.type_ with
    | .error e => .err e []
    | .ok _ =>
      let dims_t := tensor.dims
      if dims_t.length ≠ 3 then .err .invalidArgument []
      else
        match binaryScaleMode dims_t weights with
        | .error e => .err e []
        | .ok (scale_mode, permutation_flag) =>
          let permutation : List Int :=
            (((List.range (dims_t.length + 1)).map (fun i => (i : Int))).set 1
              (dims_t.length : Int)).set dims_t.length 1
          let step1 : StepResult TrtTensor :=
            if permutation_flag then
              if scale_mode = ScaleMode.kCHANNEL ∧ dims_t.length > 1 then
                transposeTensor vo tensor permutation
              else .err .invalidArgument []
            else .ok tensor []
          StepResult.andThen [] step1 fun tensor1 net1 =>
            -- params->converter->is_fp16() dereferences the converter
            if vo then .nullDeref net1
            else
              let weights1 := if isFp16 then convertFP32ToFP16 weights else weights
              let prep : StepResult TrtTensor :=
                if nodeOp = "Sub" then
                  if swapped_inputs then .ok ⟨tensor1.dims, none⟩ [.unary .kNEG]
                  else match unaryCompute weights1 with
                    | .error e => .err e []
                    | .ok _ => .ok tensor1 []
                else if nodeOp = "Div" ∨ nodeOp = "RealDiv" then
                  if swapped_inputs then .ok ⟨tensor1.dims, none⟩ [.unary .kRECIP]
                  else match unaryCompute weights1 with
                    | .error e => .err e []
                    | .ok _ => .ok tensor1 []
                else if nodeOp = "Mul" ∨ nodeOp = "Add" then .ok tensor1 []
                else .err .unimplemented []
              StepResult.andThen net1 prep fun tensor2 net2 =>
                let net3 := net2 ++ [.scale scale_mode]
                if permutation_flag then
                  StepResult.andThen net3
                      (transposeTensor vo ⟨tensor2.dims, none⟩ permutation)
                    fun outT net4 => .ok [.tensor outT (-1)] net4
                else .ok [.tensor ⟨tensor2.dims, none⟩ (-1)] net3

/-- The fixed operator map of `BinaryTensorOpTensor`. -/
def binaryOpMap : String → Option EltOp
  | "Add" => some .kSUM
  | "Mul" => some .kPROD
  | "Sub" => some .kSUB
  | "Div" => some .kDIV
  | "RealDiv" => some .kDIV
  | "Minimum" => some .kMIN
  | "Maximum" => some .kMAX
  | _ => none

/-- Output dims of an accelerator elementwise layer over two equal-rank
operands (per-axis broadcast; external layer semantics). -/
def elementwiseOutDims (a b : List Int) : List Int := a.zipWith max b

/-- `BinaryTensorOpTensor`: the generic elementwise path — resolve the
broadcast shapes, reshape both operands through `PrepareTensorForShape`,
read the `T` attribute (`TF_CHECK_OK(ConvertDType(...))` aborts on an
unconvertible dtype), then one elementwise layer from the operator map. -/
def binaryTensorOpTensor (nodeOp : String) (tAttr : DataType) (vo : Bool)
    (operand_l operand_r : TRT_TensorOrWeights) : ConvResult :=
  match tensorRTGetBroadcastShape operand_l.getTrtDims operand_l.isTensor
      operand_r.getTrtDims operand_r.isTensor with
  | none => .err .invalidArgument []
  | some (dim_l, dim_r) =>
    StepResult.andThen [] (prepareTensorForShape vo operand_l dim_l) fun tensor_l net1 =>
    StepResult.andThen net1 (prepareTensorForShape vo operand_r dim_r) fun tensor_r net2 =>
      match convertDType tAttr with
      | .error _ => .fatal net2
      | .ok _ =>
        match binaryOpMap nodeOp with
        | none => .err .unimplemented net2
        | some eop =>
            .ok [.tensor ⟨elementwiseOutDims tensor_l.dims tensor_r.dims, none⟩ (-1)]
              (net2 ++ [.elementwise eop])

/-- Prepend earlier network calls onto a result's trace. -/
def ConvResult.prependNet (pre : List NetLayer) : ConvResult → ConvResult
  | .ok outs net => .ok outs (pre ++ net)
  | .err c net => .err c (pre ++ net)
  | .nullDeref net => .nullDeref (pre ++ net)
  | .fatal net => .fatal (pre ++ net)

/-- `ConvertBinary`: exactly two inputs; both-weights is Unimplemented
(constant folding belongs upstream); with exactly one weight the scale
path is attempted first (operands swapped when the weight is on the
left), and any failure falls back to the generic elementwise path (whose
trace keeps the layers the failed attempt already added to the network);
two tensors go straight to the elementwise path. -/
def convertBinary (vo : Bool) (isFp16 : Bool) (inputs : List TRT_TensorOrWeights)
    (nd : NodeDef) : ConvResult :=
  if inputs.length ≠ 2 then .err .failedPrecondition []
  else
    match inputs with
    | [i0, i1] =>
      if i0.isWeights && i1.isWeights then .err .unimplemented []
      else
        let status : ConvResult :=
          match i0, i1 with
          | .tensor t _, .weights w => binaryTensorOpWeight nd.op isFp16 vo t w false
          | .weights w, .tensor t _ => binaryTensorOpWeight nd.op isFp16 vo t w true
          | _, _ => .ok [] []
        match status with
        | .nullDeref net => .nullDeref net
        | .fatal net => .fatal net
        | .ok outs net =>
            if i0.isTensor && i1.isTensor then
              ConvResult.prependNet net (binaryTensorOpTensor nd.op nd.tAttr vo i0 i1)
            else .ok outs net
        | .err _ net =>
            ConvResult.prependNet net (binaryTensorOpTensor nd.op nd.tAttr vo i0 i1)
    | _ => .err .failedPrecondition []

/-- `ConvertIdentity` (`at(0)` on an empty input vector aborts). -/
def convertIdentity (inputs : List TRT_TensorOrWeights) : ConvResult :=
  match inputs with
  | i :: _ => .ok [i] []
  | [] => .fatal []

/-- `ConvertTranspose`: tensor plus integer weight permutation; same
batch-dimension-immutability rule as `TransposeTensor`; validation-only
mode returns after the checks. -/
def convertTranspose (vo : Bool) (inputs : List TRT_TensorOrWeights) : ConvResult :=
  match inputs with
  | [.tensor t _, .weights w] =>
      let perm : List Int := (List.range w.count.toNat).map (fun i => w.ivals.getD i 0)
      if perm.length ≠ t.dims.length + 1 then .err .invalidArgument []
      else if perm.getD 0 0 ≠ 0 then .err .unimplemented []
      else if vo then .ok [] []
      else
        StepResult.andThen [] (transposeTensor vo t perm) fun outT net =>
          .ok [.tensor outT (-1)] net
  | _ => .err .invalidArgument []

/-- `ReorderCKtoKC`: swap the two leading dims of the weight shape into a
fresh buffer; only float and half storage is supported — anything else is
`LOG(FATAL)`.  Transposed numeric contents are not modelled. -/
def reorderCKtoKC (iweights : TRT_ShapedWeights) : Except Unit TRT_ShapedWeights :=
  let c := iweights.shape_.getD 0 0
  let k := iweights.shape_.getD 1 0
  let oweights := { iweights with shape_ := (iweights.shape_.set 0 k).set 1 c }
  match iweights.type_ with
  | .DT_FLOAT => .ok oweights
  | .DT_HALF => .ok oweights
  | _ => .error ()

/-- The `while (input_dim.nbDims != 3)` padding loop of
`ConvertMatMulHelper`; for rank > 3 the source loop overruns the fixed
dims buffer (undefined behaviour), modelled as the identity. -/
def padTo3 (dims : List Int) : List Int :=
  dims ++ List.replicate (3 - dims.length) 1

/-- `ConvertMatMulHelper`: left operand must be a tensor; the weight is
reordered CK→KC unless already transposed; the input is padded to rank 3
and reshaped, a fully-connected layer is emitted, and its output is
squeezed back to rank 1.  All reshapes go through the converter
(`PrepareTensorForShape`), so a validation-only call dereferences the
null converter before reaching any check that could stop it. -/
def convertMatMulHelper (vo : Bool) (tensor_input : TRT_TensorOrWeights)
    (weights_raw : TRT_ShapedWeights) (transpose_weight : Bool) : ConvResult :=
  if ¬ tensor_input.isTensor then .err .invalidArgument []
  else
    match (if transpose_weight then Except.ok weights_raw
           else reorderCKtoKC weights_raw : Except Unit TRT_ShapedWeights) with
    | .error _ => .fatal []
    | .ok weights =>
      let noutput := weights.shape_.getD 0 0
      let input_dim := padTo3 tensor_input.getTrtDims
      StepResult.andThen [] (prepareTensorForShape vo tensor_input input_dim)
        fun _ net1 =>
          let net2 := net1 ++ [.fullyConnected]
          StepResult.andThen net2
              (prepareTensorForShape vo (.tensor ⟨[noutput, 1, 1], none⟩ (-1)) [noutput])
            fun outT net3 => .ok [.tensor outT (-1)] net3

/-- `ConvertMatMul`: tensor×weights only; dtype must be float or half;
`transpose_a` is unsupported (Internal); then the fully-connected
helper.  Note there is no validation-only short-circuit. -/
def convertMatMul (vo : Bool) (inputs : List TRT_TensorOrWeights)
    (nd : NodeDef) : ConvResult :=
  match inputs with
  | [i0, .weights w] =>
    if ¬ i0.isTensor then .err .invalidArgument []
    else if nd.tAttr ≠ .DT_FLOAT ∧ nd.tAttr ≠ .DT_HALF then .err .unimplemented []
    else if nd.transposeA then .err .internal []
    else convertMatMulHelper vo i0 w nd.transposeB
  | _ => .err .invalidArgument []

/-- The common signature of op-converter functions: validation-only flag,
fp16 flag, resolved inputs, node. -/
def OpConverter : Type := Bool → Bool → List TRT_TensorOrWeights → NodeDef → ConvResult

/-- The registrations of `RegisterOpConverters` whose converters are
embedded here (the remaining registered operators — convolution, pooling,
activation, bias-add scale, const, pad, concat, fused batch-norm, unary,
reduce, softmax, batch-matmul, top-k — are exercised by no claim and are
not embedded; looking them up in this model yields `none`). -/
def opRegistry : String → Option OpConverter
  | "Identity" => some (fun _ _ inputs _ => convertIdentity inputs)
  | "Snapshot" => some (fun _ _ inputs _ => convertIdentity inputs)
  | "Add" => some convertBinary
  | "Mul" => some convertBinary
  | "Sub" => some convertBinary
  | "Div" => some convertBinary
  | "RealDiv" => some convertBinary
  | "Maximum" => some convertBinary
  | "Minimum" => some convertBinary
  | "Transpose" => some (fun vo _ inputs _ => convertTranspose vo inputs)
  | "Reshape" => some (fun vo _ inputs _ => convertReshape vo inputs)
  | "MatMul" => some (fun vo _ inputs nd => convertMatMul vo inputs nd)
  | _ => none

/-- Control-dependency input names carry a leading caret. -/
def isControlInput (s : String) : Bool :=
  match s.toList with
  | '^' :: _ => true
  | _ => false

/-- Input-name normalization in `Converter::GetInputs`: a trailing `:0`
(necessarily containing the last colon) is erased. -/
def normalizeInputName (s : String) : String :=
  match s.toList.reverse with
  | '0' :: ':' :: restRev => String.mk restRev.reverse
  | _ => s

/-- The resolution loop of `Converter::GetInputs`: control inputs are
skipped, names are normalized, and an unbound name is InvalidArgument. -/
def getInputsLoop (c : Converter) : List String → Except ErrCode (List TRT_TensorOrWeights)
  | [] => .ok []
  | s :: rest =>
      if isControlInput s then getInputsLoop c rest
      else
        match c.trtTensors.lookup (normalizeInputName s) with
        | some v =>
            match getInputsLoop c rest with
            | .ok l => .ok (v :: l)
            | .error e => .error e
        | none => .error .invalidArgument

/-- `Converter::GetInputs`. -/
def Converter.getInputs (c : Converter) (nd : NodeDef) :
    Except ErrCode (List TRT_TensorOrWeights) :=
  getInputsLoop c nd.input

/-- Result of `Converter::ConvertNode` (or a whole-graph step): the
updated converter plus the network trace, or the abort kinds of
`ConvResult`. -/
inductive NodeResult where
  | ok (c : Converter) (net : List NetLayer)
  | err (code : ErrCode) (net : List NetLayer)
  | nullDeref (net : List NetLayer)
  | fatal (net : List NetLayer)
  deriving DecidableEq, Repr

/-- The output naming-and-binding loop of `Converter::ConvertNode`:
output 0 gets the bare node name, output i>0 gets `name:i`; an output
tensor whose accelerator-level name is still empty is assigned that name
(an already-named tensor — the Identity pass-through case — is left
alone); the value is inserted into the symbol table, and a collision
aborts. -/
def addOutputsLoop (c : Converter) (ndName : String) :
    List TRT_TensorOrWeights → Nat → Except ErrCode Converter
  | [], _ => .ok c
  | out :: rest, i =>
      let output_name := if i = 0 then ndName else ndName ++ ":" ++ toString i
      let out' := match out with
        | .tensor t b =>
            if t.name = none ∨ t.name = some "" then
              TRT_TensorOrWeights.tensor { t with name := some output_name } b
            else .tensor t b
        | .weights w => .weights w
      match c.addTensorOrWeights output_name out' with
      | (.ok, c') => addOutputsLoop c' ndName rest (i + 1)
      | (.err e, _) => .error e

/-- `Converter::ConvertNode`: resolve the inputs against the symbol
table, dispatch — the external plugin registry first, then the built-in
registry, Unimplemented when neither matches — and bind every produced
output.  `is_plugin` and `plugin_converter` model the external
`PluginFactoryTensorRT`. -/
def Converter.convertNode (c : Converter) (is_plugin : String → Bool)
    (plugin_converter : OpConverter) (nd : NodeDef) : NodeResult :=
  match c.getInputs nd with
  | .error e => .err e []
  | .ok inputs =>
    let r : ConvResult :=
      if is_plugin nd.op then plugin_converter false c.isFp16 inputs nd
      else
        match opRegistry nd.op with
        | none => .err .unimplemented []
        | some f => f false c.isFp16 inputs nd
    match r with
    | .err e net => .err e net
    | .nullDeref net => .nullDeref net
    | .fatal net => .fatal net
    | .ok outputs net =>
        match addOutputsLoop c nd.name outputs 0 with
        | .ok c' => .ok c' net
        | .error e => .err e net

/-- `Converter::AddInputTensor`: reconcile the batch size first (a
mismatch is wrapped but keeps its code), create the accelerator input
binding (layer creation is modelled as succeeding), and bind it in the
symbol table. -/
def Converter.addInputTensor (c : Converter) (name : String) (dims : List Int)
    (batch_size : Int) : Status × Converter × List NetLayer :=
  match c.maybeUpdateBatchSize batch_size with
  | (.err e, c') => (.err e, c', [])
  | (.ok, c') =>
      let tensor : TrtTensor := ⟨dims, some name⟩
      match c'.addTensorOrWeights name (.tensor tensor (-1)) with
      | (.ok, c'') => (.ok, c'', [.inputT name])
      | (.err e, c'') => (.err e, c'', [.inputT name])

/-- The single-scalar weight of the end-to-end Add demonstration. -/
def addDemoWeights : TRT_ShapedWeights := ⟨.DT_FLOAT, [1], [17]⟩

/-- The Add node of the end-to-end demonstration. -/
def addDemoNode : NodeDef := { name := "my_add", op := "Add", input := ["input", "w"] }

/-- Converter state after binding the engine input `"input"` (framework
shape `[N,3,4,4]`, i.e. TRT dims `[3,4,4]` with batch `N`) and the
constant `"w"`. -/
def addDemoConverter (n : Int) : Converter :=
  (((((Converter.init false).addInputTensor "input" [3, 4, 4] n).2.1)).addTensorOrWeights
    "w" (.weights addDemoWeights)).2

/-- The reserved input-placeholder name stem (`kInputPHName`). -/
def kInputPHName : String := "TensorRTInputPH_"

/-- The reserved output-placeholder name stem (`kOutputPHName`). -/
def kOutputPHName : String := "TensorRTOutputPH_"

/-- `StrCat(kInputPHName, port)`. -/
def mkInputPH (port : Nat) : String := kInputPHName ++ toString port

/-- `StrCat(kOutputPHName, port)`. -/
def mkOutputPH (port : Nat) : String := kOutputPHName ++ toString port

/-- `str_util::StartsWith`. -/
def strStartsWith (s pre : String) : Bool := pre.data.isPrefixOf s.data

/-- Digits to a number (for `ParseTensorName`). -/
def digitsToInt (ds : List Char) : Int :=
  ds.foldl (fun acc ch => acc * 10 + ((ch.toNat - 48 : Nat) : Int)) 0

/-- `ParseTensorName`: `^name` is a control reference (its slot is
`Graph::kControlSlot = -1`), `name:digits` carries an output port, and a
plain `name` is port 0. -/
def parseTensorName (s : String) : String × Int :=
  match s.data with
  | '^' :: rest => (String.mk rest, -1)
  | cs =>
      let rev := cs.reverse
      let digits := rev.takeWhile (fun ch => ch.isDigit)
      if digits.isEmpty then (s, 0)
      else
        match rev.drop digits.length with
        | ':' :: baseRev => (String.mk baseRev.reverse, digitsToInt digits.reverse)
        | _ => (s, 0)

/-- `EngineConnection`, the fields segment extraction reads.  The
control-edge marker `is_control_edge()` is a field here; the shape/dtype
written back onto the connection through the external property-inference
oracle is not modelled. -/
structure EngineConnection where
  outside_id : Nat
  outside_node_name : String
  outside_port : Int
  inside_id : Nat
  inside_node_name : String
  inside_port : Nat
  is_input_edge : Bool
  port_number : Nat
  is_control : Bool
  deriving DecidableEq, Repr

/-- Phase 1 of `ConvertSegmentToGraphDef`: walk the connections skipping
control edges; the outside endpoint must exist in the graph (NotFound
otherwise); an input connection adds one Placeholder named
`kInputPHName + port` unless the marker set already holds that name, an
output connection adds one Identity named `kOutputPHName + port` wired to
the inside endpoint, with the same marker-set reuse.  (The placeholder's
shape/dtype attributes come from the external oracle and are not
modelled.) -/
def addMarkerNodes (graph : List (Nat × NodeDef)) :
    List EngineConnection → List String → List NodeDef →
    Except ErrCode (List String × List NodeDef)
  | [], markers, seg => .ok (markers, seg)
  | conn :: rest, markers, seg =>
      if conn.is_control then addMarkerNodes graph rest markers seg
      else
        match graph.lookup conn.outside_id with
        | none => .error .notFound
        | some _ =>
            let node_name := if conn.is_input_edge then mkInputPH conn.port_number
              else mkOutputPH conn.port_number
            if markers.contains node_name then addMarkerNodes graph rest markers seg
            else
              let newNode : NodeDef :=
                if conn.is_input_edge then
                  { name := node_name, op := "Placeholder", input := [] }
                else
                  { name := node_name, op := "Identity",
                    input := [conn.inside_node_name] }
              addMarkerNodes graph rest (node_name :: markers) (seg ++ [newNode])

/-- The default node produced by an (undefined-behaviour) `FindNodeId`
miss during the copy loop; theorems assume every listed id is present. -/
def emptyNode : NodeDef := { name := "", op := "", input := [] }

/-- `GetCommonNameScope`: longest shared character prefix, cut back to
just after its last `/` (empty when there is none). -/
def commonPrefixChars : List Char → List Char → List Char
  | a :: as, b :: bs => if a = b then a :: commonPrefixChars as bs else []
  | _, _ => []

def takeUpToLastSlash (cs : List Char) : List Char :=
  (cs.reverse.dropWhile (fun ch => ch ≠ '/')).reverse

def getCommonNameScope (op_name_a op_name_b : String) : String :=
  String.mk (takeUpToLastSlash (commonPrefixChars op_name_a.data op_name_b.data))

/-- The running common scope over the copy loop (starts from the first
listed node's name; the empty id list dereferences `*begin()` in the
source and is not reached by the theorems). -/
def computeCommonScope (graph : List (Nat × NodeDef)) (ids : List Nat) : String :=
  match ids with
  | [] => ""
  | id0 :: _ =>
      ids.foldl
        (fun scope id => getCommonNameScope scope (((graph.lookup id).getD emptyNode).name))
        (((graph.lookup id0).getD emptyNode).name)

/-- The `old_to_new_id_map` built during the copy loop: id ↦ position in
the fragment.  A later duplicate id overwrites (`reverse` + first match);
a miss reads a value-initialized 0, like `std::map::operator[]`. -/
def oldToNewId (ids : List Nat) (base : Nat) (id : Nat) : Nat :=
  (((ids.enum.map (fun p => (p.2, base + p.1))).reverse).lookup id).getD 0

/-- Phase 3: rewrite, for every non-control input connection, the inside
node's input at `inside_port` to the input placeholder's name. -/
def rewriteInputEdges (old_to_new : Nat → Nat) :
    List EngineConnection → List NodeDef → List NodeDef
  | [], seg => seg
  | conn :: rest, seg =>
      if conn.is_control || !conn.is_input_edge then
        rewriteInputEdges old_to_new rest seg
      else
        let idx := old_to_new conn.inside_id
        let seg' :=
          match seg[idx]? with
          | some nd => seg.set idx
              { nd with input := nd.input.set conn.inside_port (mkInputPH conn.port_number) }
          | none => seg
        rewriteInputEdges old_to_new rest seg'

/-- Phase 4, one node: keep an input whose referenced node is inside the
segment or is a recognized input placeholder; drop an outside control
reference; any other outside reference is a hard InvalidArgument. -/
def filterNodeInputs (subgraph_node_names : List String) :
    List String → Except ErrCode (List String)
  | [] => .ok []
  | s :: rest =>
      let t := parseTensorName s
      if ¬ subgraph_node_names.contains t.1 ∧ ¬ strStartsWith t.1 kInputPHName then
        if t.2 == -1 then filterNodeInputs subgraph_node_names rest
        else .error .invalidArgument
      else
        match filterNodeInputs subgraph_node_names rest with
        | .ok l => .ok (s :: l)
        | .error e => .error e

/-- Phase 4 over every node of the fragment. -/
def stripOutsideInputs (subgraph_node_names : List String) :
    List NodeDef → Except ErrCode (List NodeDef)
  | [] => .ok []
  | nd :: rest =>
      match filterNodeInputs subgraph_node_names nd.input with
      | .error e => .error e
      | .ok inp =>
          match stripOutsideInputs subgraph_node_names rest with
          | .ok l => .ok ({ nd with input := inp } :: l)
          | .error e => .error e

/-- `ConvertSegmentToGraphDef`: emit the boundary placeholder/identity
nodes, copy the internal nodes in the given (topological) order, rewrite
inputs crossing the boundary to the placeholders, strip remaining
outside references (control only — anything else fails), and return the
fragment with the common name scope. -/
def convertSegmentToGraphDef (graph : List (Nat × NodeDef))
    (subgraph_node_names : List String) (subgraph_node_ids : List Nat)
    (connections : List EngineConnection) :
    Except ErrCode (List NodeDef × String) :=
  match addMarkerNodes graph connections [] [] with
  | .error e => .error e
  | .ok (_, seg1) =>
      let base := seg1.length
      let old_to_new : Nat → Nat := oldToNewId subgraph_node_ids base
      let seg2 := seg1 ++ subgraph_node_ids.map
        (fun id => (graph.lookup id).getD emptyNode)
      let seg3 := rewriteInputEdges old_to_new connections seg2
      let scope := computeCommonScope graph subgraph_node_ids
      match stripOutsideInputs subgraph_node_names seg3 with
      | .error e => .error e
      | .ok seg4 => .ok (seg4, scope)

/-- The port numbers of the non-control input connections. -/
def inputPorts (conns : List EngineConnection) : List Nat :=
  (conns.filter (fun c => !c.is_control && c.is_input_edge)).map
    (fun c => c.port_number)

/-- How many Placeholder nodes named `kInputPHName + p` a fragment has. -/
def countInputPH (p : Nat) (seg : List NodeDef) : Nat :=
  seg.countP (fun nd => nd.name == mkInputPH p && nd.op == "Placeholder")

/-- The marker-set name a non-control connection claims in phase 1. -/
def connMarkName (c : EngineConnection) : String :=
  if c.is_input_edge then mkInputPH c.port_number else mkOutputPH c.port_number

/-- How many input placeholders named `kInputPHName + p` phase 1 adds,
given the marker set it starts from (an invariant of the phase-1 loop). -/
def phCountTerm (p : Nat) (markers : List String)
    (conns : List EngineConnection) : Nat :=
  if mkInputPH p ∈ markers then 0
  else if mkInputPH p ∈ (inputPorts conns).map mkInputPH then 1 else 0

/-- An input reference phase 4 keeps: its node is inside the segment or
is a recognized input placeholder. -/
def keepInput (subgraph_node_names : List String) (s : String) : Bool :=
  subgraph_node_names.contains (parseTensorName s).1 ||
    strStartsWith (parseTensorName s).1 kInputPHName

/-- An input reference that makes phase 4 fail: outside the segment, not
a placeholder, and not a control reference. -/
def badInput (subgraph_node_names : List String) (s : String) : Bool :=
  !keepInput subgraph_node_names s && !((parseTensorName s).2 == -1)

/-- Demonstration graph: chain `A → B → C` inside the segment, fed by
outside node `ext`, feeding outside node `sink`; `C` also has a
control-only reference to the outside node `ctrl`. -/
def demoGraph : List (Nat × NodeDef) :=
  [(0, { name := "ext", op := "Const", input := [] }),
   (1, { name := "A", op := "Relu", input := ["ext"] }),
   (2, { name := "B", op := "Relu", input := ["A"] }),
   (3, { name := "C", op := "Relu", input := ["B", "^ctrl"] }),
   (4, { name := "sink", op := "Relu", input := ["C"] })]

/-- Like `demoGraph` but `B` carries a non-control reference to a node
outside the segment that is not a placeholder. -/
def demoGraphStray : List (Nat × NodeDef) :=
  [(0, { name := "ext", op := "Const", input := [] }),
   (1, { name := "A", op := "Relu", input := ["ext"] }),
   (2, { name := "B", op := "Relu", input := ["A", "stray"] }),
   (3, { name := "C", op := "Relu", input := ["B"] }),
   (4, { name := "sink", op := "Relu", input := ["C"] })]

/-- Boundary of the demonstration: one input edge `ext:0 → A:0` on port
0 and one output edge `C:0 → sink:0` on port 0. -/
def demoConns : List EngineConnection :=
  [{ outside_id := 0, outside_node_name := "ext", outside_port := 0,
     inside_id := 1, inside_node_name := "A", inside_port := 0,
     is_input_edge := true, port_number := 0, is_control := false },
   { outside_id := 4, outside_node_name := "sink", outside_port := 0,
     inside_id := 3, inside_node_name := "C", inside_port := 0,
     is_input_edge := false, port_number := 0, is_control := false }]

/-- The fragment the demonstration produces: one placeholder, one
identity, and the three internal nodes with `A` rewired to the
placeholder and `C`'s outside control reference dropped. -/
def demoFragment : List NodeDef :=
  [{ name := "TensorRTInputPH_0", op := "Placeholder", input := [] },
   { name := "TensorRTOutputPH_0", op := "Identity", input := ["C"] },
   { name := "A", op := "Relu", input := ["TensorRTInputPH_0"] },
   { name := "B", op := "Relu", input := ["A"] },
   { name := "C", op := "Relu", input := ["B"] }]

end TfTrt

namespace TfTrt

/-! Lemmas relating the source broadcast resolver to its specification. -/

theorem broadcastFeasible_eq_zip_all (l r : List Int) (h : l.length = r.length) :
    broadcastFeasible l r =
      (l.zip r).all (fun p => p.1 == p.2 || p.1 == 1 || p.2 == 1) := by
  induction l generalizing r with
  | nil => cases r with
    | nil => rfl
    | cons b bs => simp at h
  | cons a as ih =>
    cases r with
    | nil => simp at h
    | cons b bs =>
      simp only [broadcastFeasible, List.zip_cons_cons, List.all_cons]
      rw [ih bs (by simpa using h)]

theorem set_zero_replicate_append (n : Nat) (l : List Int) (hn : 0 < n) :
    (List.replicate n (1 : Int) ++ l).set 0 (-1) =
      -1 :: (List.replicate (n - 1) (1 : Int) ++ l) := by
  cases n with
  | zero => omega
  | succ m => simp [List.replicate_succ]

theorem broadcast_eq_spec (l : List Int) (lT : Bool) (r : List Int) (rT : Bool) :
    tensorRTGetBroadcastShape l lT r rT = broadcastShapeSpec l lT r rT := by
  unfold tensorRTGetBroadcastShape broadcastShapeSpec
  cases lT <;> cases rT <;>
    simp only [Bool.false_and, Bool.true_and, Bool.false_eq_true, if_false, if_true,
      cond_false, cond_true, decide_eq_true_eq, Nat.add_zero, false_and, true_and]
  · -- both weights: no batch forcing, no rank failure
    have hl := le_max_left l.length r.length
    have hr := le_max_right l.length r.length
    have hlen : (List.replicate (max l.length r.length - l.length) (1 : Int) ++ l).length
        = max l.length r.length := by
      simp only [List.length_append, List.length_replicate]; omega
    have hlen' : (List.replicate (max l.length r.length - r.length) (1 : Int) ++ r).length
        = max l.length r.length := by
      simp only [List.length_append, List.length_replicate]; omega
    rw [broadcastFeasible_eq_zip_all _ _ (by rw [hlen, hlen'])]
  · -- l weight, r tensor
    have hleL := le_max_left l.length (r.length + 1)
    have hleR := le_max_right l.length (r.length + 1)
    by_cases hr : max l.length (r.length + 1) = r.length + 1
    · rw [if_neg (show ¬ (max l.length (r.length + 1) ≠ r.length + 1) from by omega),
        if_neg (show ¬ (r.length + 1 < max l.length (r.length + 1)) from by omega)]
      rw [set_zero_replicate_append _ _ (show 0 < max l.length (r.length + 1) - r.length
        from by omega)]
      rw [show max l.length (r.length + 1) - r.length - 1
          = max l.length (r.length + 1) - 1 - r.length from by omega]
      have hlen : (List.replicate (max l.length (r.length + 1) - l.length) (1 : Int)
          ++ l).length = max l.length (r.length + 1) := by
        simp only [List.length_append, List.length_replicate]; omega
      have hlen' : ((-1 : Int) :: (List.replicate (max l.length (r.length + 1) - 1 - r.length)
          (1 : Int) ++ r)).length = max l.length (r.length + 1) := by
        simp only [List.length_cons, List.length_append, List.length_replicate]; omega
      rw [broadcastFeasible_eq_zip_all _ _ (by rw [hlen, hlen'])]
    · rw [if_pos (show max l.length (r.length + 1) ≠ r.length + 1 from hr),
        if_pos (show r.length + 1 < max l.length (r.length + 1) from by omega)]
  · -- l tensor, r weight
    have hleL := le_max_left (l.length + 1) r.length
    have hleR := le_max_right (l.length + 1) r.length
    by_cases hl : max (l.length + 1) r.length = l.length + 1
    · rw [if_neg (show ¬ (max (l.length + 1) r.length ≠ l.length + 1) from by omega),
        if_neg (show ¬ (l.length + 1 < max (l.length + 1) r.length) from by omega)]
      rw [set_zero_replicate_append _ _ (show 0 < max (l.length + 1) r.length - l.length
        from by omega)]
      rw [show max (l.length + 1) r.length - l.length - 1
          = max (l.length + 1) r.length - 1 - l.length from by omega]
      have hlen : ((-1 : Int) :: (List.replicate (max (l.length + 1) r.length - 1 - l.length)
          (1 : Int) ++ l)).length = max (l.length + 1) r.length := by
        simp only [List.length_cons, List.length_append, List.length_replicate]; omega
      have hlen' : (List.replicate (max (l.length + 1) r.length - r.length) (1 : Int)
          ++ r).length = max (l.length + 1) r.length := by
        simp only [List.length_append, List.length_replicate]; omega
      rw [broadcastFeasible_eq_zip_all _ _ (by rw [hlen, hlen'])]
    · rw [if_pos (show max (l.length + 1) r.length ≠ l.length + 1 from hl),
        if_pos (show l.length + 1 < max (l.length + 1) r.length from by omega)]
  · -- both tensors
    have hleL := le_max_left (l.length + 1) (r.length + 1)
    have hleR := le_max_right (l.length + 1) (r.length + 1)
    by_cases hl : max (l.length + 1) (r.length + 1) = l.length + 1
    · rw [if_neg (show ¬ (max (l.length + 1) (r.length + 1) ≠ l.length + 1) from by omega),
        if_neg (show ¬ (l.length + 1 < max (l.length + 1) (r.length + 1)) from by omega)]
      by_cases hr : max (l.length + 1) (r.length + 1) = r.length + 1
      · rw [if_neg (show ¬ (max (l.length + 1) (r.length + 1) ≠ r.length + 1) from by omega),
          if_neg (show ¬ (r.length + 1 < max (l.length + 1) (r.length + 1)) from by omega)]
        rw [set_zero_replicate_append _ _
          (show 0 < max (l.length + 1) (r.length + 1) - l.length from by omega)]
        rw [set_zero_replicate_append _ _
          (show 0 < max (l.length + 1) (r.length + 1) - r.length from by omega)]
        rw [show max (l.length + 1) (r.length + 1) - l.length - 1
            = max (l.length + 1) (r.length + 1) - 1 - l.length from by omega]
        rw [show max (l.length + 1) (r.length + 1) - r.length - 1
            = max (l.length + 1) (r.length + 1) - 1 - r.length from by omega]
        have hlen : ((-1 : Int) :: (List.replicate (max (l.length + 1) (r.length + 1) - 1
            - l.length) (1 : Int) ++ l)).length = max (l.length + 1) (r.length + 1) := by
          simp only [List.length_cons, List.length_append, List.length_replicate]; omega
        have hlen' : ((-1 : Int) :: (List.replicate (max (l.length + 1) (r.length + 1) - 1
            - r.length) (1 : Int) ++ r)).length = max (l.length + 1) (r.length + 1) := by
          simp only [List.length_cons, List.length_append, List.length_replicate]; omega
        rw [broadcastFeasible_eq_zip_all _ _ (by rw [hlen, hlen'])]
      · rw [if_pos (show max (l.length + 1) (r.length + 1) ≠ r.length + 1 from hr),
          if_pos (show r.length + 1 < max (l.length + 1) (r.length + 1) from by omega)]
    · rw [if_pos (show max (l.length + 1) (r.length + 1) ≠ l.length + 1 from hl),
        if_pos (show l.length + 1 < max (l.length + 1) (r.length + 1) from by omega)]

/-- **C1.** For every pair of operand shapes each tagged as tensor or weight,
`TensorRTGetBroadcastShape` right-aligns both shapes into a buffer of rank
max-rank+1 padded with 1s, sets the batch slot to -1 for every tensor-tagged
operand, fails whenever a tensor-tagged operand's rank-plus-one does not reach
the maximum combined rank or some aligned axis pair differs with neither side
equal to 1, and on success returns both shapes with the batch slot stripped;
in particular, for tensor `T=[5,3]` (implicit batch 5, TRT dims `[3]`) and
weight `W=[1,3]`, both returned shapes have rank 1 and size 3. -/
theorem broadcast_resolver_spec :
    (∀ (l : List Int) (lT : Bool) (r : List Int) (rT : Bool),
        tensorRTGetBroadcastShape l lT r rT = broadcastShapeSpec l lT r rT) ∧
      tensorRTGetBroadcastShape [3] true [1, 3] false = some ([3], [3]) :=
  ⟨broadcast_eq_spec, by decide⟩

/-- **C7.** For every spatial axis with positive input size, stride, and
kernel size, `CreateSamePadding` computes the total padding
`p = ((input-1)/stride)*stride + kernel - input` (integer division), clamped
below at 0, and splits it as `left = p/2`, `right = p - left` (so `right ≥
left`); in particular `input=7, stride=2, kernel=3` yields `p=2` split as
`left=1, right=1`. -/
theorem same_padding_formula (stride kernel input : Int)
    (hs : 0 < stride) (hk : 0 < kernel) (hi : 0 < input) :
    samePaddingAxis stride kernel input =
      (let p := max 0 ((Int.tdiv (input - 1) stride) * stride + kernel - input);
        (Int.tdiv p 2, p - Int.tdiv p 2)) ∧
      (samePaddingAxis stride kernel input).1 ≤ (samePaddingAxis stride kernel input).2 ∧
      createSamePadding [2] [3] [7] = [(1, 1)] := by
  refine ⟨?_, ?_, by decide⟩
  · simp only [samePaddingAxis]
    rcases le_or_lt ((Int.tdiv (input - 1) stride) * stride + kernel - input) 0 with h | h
    · rw [if_neg (by omega), max_eq_left h]
    · rw [if_pos h, max_eq_right (le_of_lt h)]
  · simp only [samePaddingAxis]
    set p0 : Int := (Int.tdiv (input - 1) stride) * stride + kernel - input with hp0
    rcases le_or_lt p0 0 with h | h
    · rw [if_neg (by omega)]
      simp
    · rw [if_pos h]
      have hnn : (0 : Int) ≤ p0 := le_of_lt h
      rw [Int.tdiv_eq_ediv hnn (by norm_num)]
      omega

/-- Witness for `same_padding_formula` at `stride=2, kernel=3, input=7`. -/
theorem same_padding_formula_witness :
    (0 : Int) < 2 ∧ (0 : Int) < 3 ∧ (0 : Int) < 7 ∧
      samePaddingAxis 2 3 7 =
        (let p := max 0 ((Int.tdiv (7 - 1) 2) * 2 + 3 - 7);
          (Int.tdiv p 2, p - Int.tdiv p 2)) :=
  ⟨by decide, by decide, by decide,
    (same_padding_formula 2 3 7 (by decide) (by decide) (by decide)).1⟩

/-- **C3.** A call to `Converter::MaybeUpdateBatchSize` succeeds iff the
stored batch size is unknown (negative), the candidate is unknown, or the
two are equal, and fails with InvalidArgument otherwise; when the stored
value is unknown and the candidate is known the stored value becomes the
candidate.  In particular `MaybeUpdateBatchSize(-1)` then
`MaybeUpdateBatchSize(4)` succeeds and fixes batch size 4, a later
`MaybeUpdateBatchSize(5)` fails, and `MaybeUpdateBatchSize(4)` succeeds
again without changing the stored value. -/
theorem maybe_update_batch_size (c : Converter) (b : Int) :
    ((c.maybeUpdateBatchSize b).1 = Status.ok ↔
      (c.batchSize < 0 ∨ b < 0 ∨ c.batchSize = b)) ∧
    (¬ (c.batchSize < 0 ∨ b < 0 ∨ c.batchSize = b) →
      c.maybeUpdateBatchSize b = (.err .invalidArgument, c)) ∧
    (c.batchSize < 0 → 0 ≤ b → (c.maybeUpdateBatchSize b).2.batchSize = b) ∧
    (let c0 := Converter.init false
     let r1 := c0.maybeUpdateBatchSize (-1)
     let r2 := r1.2.maybeUpdateBatchSize 4
     let r3 := r2.2.maybeUpdateBatchSize 5
     let r4 := r3.2.maybeUpdateBatchSize 4
     r1.1 = .ok ∧ r2.1 = .ok ∧ r2.2.batchSize = 4 ∧
       r3.1 = .err .invalidArgument ∧ r3.2.batchSize = 4 ∧
       r4.1 = .ok ∧ r4.2 = r3.2) := by
  refine ⟨?_, ?_, ?_, by decide⟩
  · unfold Converter.maybeUpdateBatchSize
    split_ifs with h1 h2 <;>
      simp_all only [Bool.or_eq_true, decide_eq_true_eq, beq_iff_eq, Bool.and_eq_true,
        ge_iff_le] <;> constructor <;> intro h <;> simp_all <;> omega
  · intro h
    unfold Converter.maybeUpdateBatchSize
    rw [if_neg (by simp only [Bool.or_eq_true, decide_eq_true_eq, beq_iff_eq]; tauto)]
  · intro h1 h2
    unfold Converter.maybeUpdateBatchSize
    rw [if_pos (by simp; omega), if_pos (by simp; omega)]

/-- Witness for `maybe_update_batch_size`: concrete mismatch at stored 4,
candidate 5, and adoption at stored -1, candidate 4. -/
theorem maybe_update_batch_size_witness :
    (Converter.mk false 4 []).maybeUpdateBatchSize 5
        = (.err .invalidArgument, Converter.mk false 4 []) ∧
      ((Converter.init false).maybeUpdateBatchSize 4).2.batchSize = 4 :=
  ⟨(maybe_update_batch_size (Converter.mk false 4 []) 5).2.1 (by decide),
    (maybe_update_batch_size (Converter.init false) 4).2.2.1 (by decide) (by decide)⟩

/-- **C6.** `Converter::AddTensorOrWeights(name, value)` fails with
AlreadyExists and leaves the symbol table unchanged when `name` is already
bound, and otherwise inserts the value after stamping the converter's
current batch size onto it when the value is tensor-typed;
`Converter::GetTensorOrWeights(name)` fails with NotFound exactly when
`name` is unbound. -/
theorem symbol_table_ops (c : Converter) (name : String) (v : TRT_TensorOrWeights) :
    ((c.trtTensors.lookup name).isSome →
      c.addTensorOrWeights name v = (.err .alreadyExists, c)) ∧
    (c.trtTensors.lookup name = none →
      c.addTensorOrWeights name v =
        (.ok, { c with trtTensors := c.trtTensors ++
          [(name, if v.isTensor then v.setBatchSize c.batchSize else v)] })) ∧
    (c.getTensorOrWeights name = .error .notFound ↔ c.trtTensors.lookup name = none) := by
  refine ⟨?_, ?_, ?_⟩
  · intro h
    unfold Converter.addTensorOrWeights
    rw [if_pos h]
  · intro h
    unfold Converter.addTensorOrWeights
    rw [if_neg (by simp [h])]
  · unfold Converter.getTensorOrWeights
    cases h : c.trtTensors.lookup name
    · simp
    · simp

/-- **C2.** For a Reshape over a tensor input: when the input batch size
is a known positive value and the first value of the shape weight is -1
while the input's non-batch dims are not all statically known (or the
element counts differ), the node is rejected with Unimplemented; when the
first value of the shape weight equals the known input batch size, the
batch-dimension check passes and the node is accepted (validation
verdict OK) for arbitrary trailing dims. -/
theorem reshape_batch_safety (vo : Bool) (t : TrtTensor) (b : Int)
    (w : TRT_ShapedWeights) (hcount : 0 < w.count) (hb : 0 < b) :
    (w.ivals.getD 0 0 = -1 →
      (¬ hasStaticShape t.dims ∨
        trtDimsNumElements (reshapeDimsOfWeights w) ≠ trtDimsNumElements t.dims) →
      convertReshape vo [.tensor t b, .weights w] = .err .unimplemented []) ∧
    (w.ivals.getD 0 0 = b →
      convertReshape true [.tensor t b, .weights w] = .ok [] []) := by
  constructor
  · intro h0 hcond
    simp only [convertReshape, TRT_TensorOrWeights.batchSize, TRT_TensorOrWeights.getTrtDims]
    rw [if_neg (by simp only [beq_iff_eq]; omega)]
    rw [if_pos (by
      rw [if_pos (by exact hb), if_pos (by simpa using h0)]
      rcases hcond with h | h
      · simp [h]
      · simp only [Bool.or_eq_true, Bool.not_eq_true']
        right
        simpa using h)]
  · intro h0
    simp only [convertReshape, TRT_TensorOrWeights.batchSize, TRT_TensorOrWeights.getTrtDims]
    rw [if_neg (by simp only [beq_iff_eq]; omega)]
    rw [if_neg (by
      rw [if_pos (by exact hb), if_neg (by simp only [beq_iff_eq]; omega)]
      simp only [Bool.not_eq_true', beq_iff_eq]
      simpa using h0)]
    simp

/-- Witness for `reshape_batch_safety`: batch 4, shape weight `[-1, 8]`
with a non-static input dim is rejected; batch 4, shape weight `[4, 7, 9]`
is accepted in validation. -/
theorem reshape_batch_safety_witness :
    (0 : Int) < TRT_ShapedWeights.count ⟨.DT_INT32, [2], [-1, 8]⟩ ∧ (0 : Int) < 4 ∧
      convertReshape false [.tensor ⟨[-1, 4], none⟩ 4, .weights ⟨.DT_INT32, [2], [-1, 8]⟩]
        = .err .unimplemented [] ∧
      convertReshape true [.tensor ⟨[-1, 4], none⟩ 4, .weights ⟨.DT_INT32, [3], [4, 7, 9]⟩]
        = .ok [] [] :=
  ⟨by decide, by decide,
    (reshape_batch_safety false ⟨[-1, 4], none⟩ 4 ⟨.DT_INT32, [2], [-1, 8]⟩
        (by decide) (by decide)).1 (by decide) (Or.inl (by decide)),
    (reshape_batch_safety true ⟨[-1, 4], none⟩ 4 ⟨.DT_INT32, [3], [4, 7, 9]⟩
        (by decide) (by decide)).2 (by decide)⟩

/-- **C10.** For every Reshape whose second input is a weight with zero
elements (requested target shape `[]`), `ConvertReshape` returns
Unimplemented — in validation-only mode as well as in construction mode,
with no network modification and regardless of the first input. -/
theorem reshape_empty_shape_unimplemented (vo : Bool)
    (i0 : TRT_TensorOrWeights) (w : TRT_ShapedWeights) (h : w.count = 0) :
    convertReshape vo [i0, .weights w] = .err .unimplemented [] := by
  simp only [convertReshape]
  rw [if_pos (by simp [h])]

/-- Witness for `reshape_empty_shape_unimplemented`: a shape weight with
dims `[0]` (zero entries) in construction mode. -/
theorem reshape_empty_shape_unimplemented_witness :
    TRT_ShapedWeights.count ⟨.DT_INT32, [0], []⟩ = 0 ∧
      convertReshape false [.tensor ⟨[3, 4], none⟩ 2, .weights ⟨.DT_INT32, [0], []⟩]
        = .err .unimplemented [] :=
  ⟨by decide, reshape_empty_shape_unimplemented false (.tensor ⟨[3, 4], none⟩ 2)
    ⟨.DT_INT32, [0], []⟩ (by decide)⟩

/-- Witness for `symbol_table_ops`: duplicate insertion of `"x"` fails
with AlreadyExists; lookup of an unbound name is NotFound. -/
theorem symbol_table_ops_witness :
    (Converter.mk false (-1)
        [("x", .weights ⟨.DT_FLOAT, [1], [0]⟩)]).addTensorOrWeights "x"
        (.weights ⟨.DT_FLOAT, [1], [0]⟩)
      = (.err .alreadyExists, Converter.mk false (-1)
          [("x", .weights ⟨.DT_FLOAT, [1], [0]⟩)]) ∧
    (Converter.init false).getTensorOrWeights "y" = .error .notFound :=
  ⟨(symbol_table_ops (Converter.mk false (-1)
        [("x", .weights ⟨.DT_FLOAT, [1], [0]⟩)]) "x"
        (.weights ⟨.DT_FLOAT, [1], [0]⟩)).1 (by decide),
    ((symbol_table_ops (Converter.init false) "y"
        (.weights ⟨.DT_FLOAT, [1], [0]⟩)).2.2).2 (by decide)⟩

theorem prependNet_nil (r : ConvResult) : ConvResult.prependNet [] r = r := by
  cases r <;> simp [ConvResult.prependNet]

/-- **C4** (code behaviour at the failing input).  `RegisterOpValidators`
registers `ConvertMatMul` as the MatMul validator, and
`TrtNodeValidator::ValidateNode` invokes it with validation-only mode set
and a null Converter.  `ConvertTranspose` and `ConvertReshape` do return
their verdict in validation-only mode without any converter call (first
two conjuncts), but `ConvertMatMul` has no validation-only short-circuit:
on a well-formed MatMul node it reaches
`params->converter->PrepareTensorForShape` and dereferences the null
Converter instead of returning a verdict (last conjunct). -/
theorem validation_mode_converter_use :
    (∀ inputs, convertTranspose true inputs = .ok [] [] ∨
      ∃ e, convertTranspose true inputs = .err e []) ∧
    (∀ inputs, convertReshape true inputs = .ok [] [] ∨
      ∃ e, convertReshape true inputs = .err e []) ∧
    convertMatMul true
        [.tensor ⟨[2], none⟩ (-1), .weights ⟨.DT_FLOAT, [2, 5], []⟩]
        { name := "mm", op := "MatMul", input := ["a", "b"],
          tAttr := .DT_FLOAT, transposeA := false, transposeB := true }
      = .nullDeref [] := by
  refine ⟨?_, ?_, by decide⟩
  · intro inputs
    unfold convertTranspose
    split
    · dsimp only
      split_ifs <;> first | exact Or.inl rfl | exact Or.inr ⟨_, rfl⟩ | simp_all
    · exact Or.inr ⟨_, rfl⟩
  · intro inputs
    unfold convertReshape
    split
    · dsimp only
      split_ifs <;> first | exact Or.inl rfl | exact Or.inr ⟨_, rfl⟩ | simp_all
    · exact Or.inr ⟨_, rfl⟩

/-- **C5.** For every binary node (Add, Mul, Sub, Div, RealDiv, Maximum,
Minimum) with exactly two inputs: both-weights is rejected with
Unimplemented; with exactly one weight the scale path
(`BinaryTensorOpWeight`, swapped operands when the weight is on the left)
is attempted first and any error makes the result that of the generic
elementwise path (`BinaryTensorOpTensor`, keeping the layers the failed
attempt already put in the network); two tensors use only the
elementwise path. -/
theorem convert_binary_dispatch (vo isFp16 : Bool) (a b : TRT_TensorOrWeights)
    (nd : NodeDef)
    (hop : nd.op ∈ (["Add", "Mul", "Sub", "Div", "RealDiv", "Maximum",
      "Minimum"] : List String)) :
    (a.isWeights = true → b.isWeights = true →
      convertBinary vo isFp16 [a, b] nd = .err .unimplemented []) ∧
    (∀ t w bt, a = .tensor t bt → b = .weights w →
      convertBinary vo isFp16 [a, b] nd =
        match binaryTensorOpWeight nd.op isFp16 vo t w false with
        | .ok outs net => .ok outs net
        | .err _ net =>
            ConvResult.prependNet net (binaryTensorOpTensor nd.op nd.tAttr vo a b)
        | .nullDeref net => .nullDeref net
        | .fatal net => .fatal net) ∧
    (∀ t w bt, a = .weights w → b = .tensor t bt →
      convertBinary vo isFp16 [a, b] nd =
        match binaryTensorOpWeight nd.op isFp16 vo t w true with
        | .ok outs net => .ok outs net
        | .err _ net =>
            ConvResult.prependNet net (binaryTensorOpTensor nd.op nd.tAttr vo a b)
        | .nullDeref net => .nullDeref net
        | .fatal net => .fatal net) ∧
    (a.isTensor = true → b.isTensor = true →
      convertBinary vo isFp16 [a, b] nd = binaryTensorOpTensor nd.op nd.tAttr vo a b) := by
  refine ⟨?_, ?_, ?_, ?_⟩
  · intro ha hb
    cases a with
    | tensor t bt => simp [TRT_TensorOrWeights.isWeights] at ha
    | weights wa =>
      cases b with
      | tensor t bt => simp [TRT_TensorOrWeights.isWeights] at hb
      | weights wb => rfl
  · rintro t w bt rfl rfl
    show convertBinary vo isFp16 [.tensor t bt, .weights w] nd = _
    unfold convertBinary
    simp only [List.length_cons, List.length_nil, ne_eq, OfNat.ofNat_ne_zero,
      reduceCtorEq, if_false]
    cases hbw : binaryTensorOpWeight nd.op isFp16 vo t w false <;>
      simp [hbw, TRT_TensorOrWeights.isWeights, TRT_TensorOrWeights.isTensor]
  · rintro t w bt rfl rfl
    show convertBinary vo isFp16 [.weights w, .tensor t bt] nd = _
    unfold convertBinary
    cases hbw : binaryTensorOpWeight nd.op isFp16 vo t w true <;>
      simp [hbw, TRT_TensorOrWeights.isWeights, TRT_TensorOrWeights.isTensor]
  · intro ha hb
    cases a with
    | weights wa => simp [TRT_TensorOrWeights.isTensor] at ha
    | tensor ta bta =>
      cases b with
      | weights wb => simp [TRT_TensorOrWeights.isTensor] at hb
      | tensor tb btb =>
        unfold convertBinary
        simp [TRT_TensorOrWeights.isWeights, TRT_TensorOrWeights.isTensor, prependNet_nil]

/-- Witness for `convert_binary_dispatch`: an Add of two constants is
rejected with Unimplemented. -/
theorem convert_binary_dispatch_witness :
    ("Add" ∈ (["Add", "Mul", "Sub", "Div", "RealDiv", "Maximum",
      "Minimum"] : List String)) ∧
    convertBinary false false
        [.weights ⟨.DT_FLOAT, [1], [0]⟩, .weights ⟨.DT_FLOAT, [1], [0]⟩]
        { name := "n", op := "Add", input := [] }
      = .err .unimplemented [] :=
  ⟨by decide,
    (convert_binary_dispatch false false (.weights ⟨.DT_FLOAT, [1], [0]⟩)
      (.weights ⟨.DT_FLOAT, [1], [0]⟩) { name := "n", op := "Add", input := [] }
      (by decide)).1 rfl rfl⟩

theorem addDemoConverter_eq (n : Int) (hn : 0 ≤ n) :
    addDemoConverter n = ⟨false, n,
      [("input", .tensor ⟨[3, 4, 4], some "input"⟩ n),
        ("w", .weights addDemoWeights)]⟩ := by
  have hup : (Converter.init false).maybeUpdateBatchSize n = (.ok, ⟨false, n, []⟩) := by
    unfold Converter.maybeUpdateBatchSize Converter.init
    rw [if_pos (by simp), if_pos (by simp [hn])]
  unfold addDemoConverter Converter.addInputTensor
  rw [hup]
  rfl

/-- **C9.** Converting a single Add node whose first input is a live
tensor of framework shape `[N,3,4,4]` (TRT non-batch dims `[3,4,4]`) and
whose second input is a single-element weight selects the uniform scale
mode on the scale-layer path (`BinaryTensorOpWeight` with
`weights.count()==1`), and, via `ConvertNode`, binds exactly one output
tensor in the symbol table under the node's bare name. -/
theorem add_uniform_scale_end_to_end (n : Int) (hn : 0 ≤ n) (pc : OpConverter) :
    binaryScaleMode [3, 4, 4] addDemoWeights = .ok (.kUNIFORM, false) ∧
    addDemoWeights.count = 1 ∧
    ((Converter.init false).addInputTensor "input" [3, 4, 4] n).1 = .ok ∧
    (addDemoConverter n).convertNode (fun _ => false) pc addDemoNode =
      .ok { addDemoConverter n with
          trtTensors := (addDemoConverter n).trtTensors ++
            [("my_add", .tensor ⟨[3, 4, 4], some "my_add"⟩ n)] }
        [.scale .kUNIFORM] ∧
    (addDemoConverter n).trtTensors =
      [("input", .tensor ⟨[3, 4, 4], some "input"⟩ n),
        ("w", .weights addDemoWeights)] := by
  have hc := addDemoConverter_eq n hn
  have hup : (Converter.init false).maybeUpdateBatchSize n = (.ok, ⟨false, n, []⟩) := by
    unfold Converter.maybeUpdateBatchSize Converter.init
    rw [if_pos (by simp), if_pos (by simp [hn])]
  refine ⟨rfl, by decide, ?_, ?_, by rw [hc]⟩
  · unfold Converter.addInputTensor
    rw [hup]
    rfl
  · rw [hc]
    rfl

theorem strStartsWith_append (pre rest : String) :
    strStartsWith (pre ++ rest) pre = true := by
  simp [strStartsWith, String.data_append, List.isPrefixOf_iff_prefix]

theorem mkInputPH_startsWith (p : Nat) :
    strStartsWith (mkInputPH p) kInputPHName = true :=
  strStartsWith_append _ _

theorem mkOutputPH_ne_mkInputPH (q p : Nat) : mkOutputPH q ≠ mkInputPH p := by
  intro h
  have hd : (mkOutputPH q).data = (mkInputPH p).data := congrArg String.data h
  rw [mkOutputPH, mkInputPH, kOutputPHName, kInputPHName, String.data_append,
    String.data_append] at hd
  have h8 := congrArg (fun l => l[8]?) hd
  simp only [List.getElem?_append_left
      (by decide : (8 : Nat) < "TensorRTOutputPH_".data.length),
    List.getElem?_append_left
      (by decide : (8 : Nat) < "TensorRTInputPH_".data.length)] at h8
  exact absurd h8 (by decide)

theorem ne_mkInputPH_of_not_startsWith {s : String}
    (h : strStartsWith s kInputPHName = false) (p : Nat) : s ≠ mkInputPH p := by
  intro he
  rw [he, mkInputPH_startsWith] at h
  cases h

theorem inputPorts_cons (c : EngineConnection) (cs : List EngineConnection) :
    inputPorts (c :: cs) =
      if !c.is_control && c.is_input_edge then c.port_number :: inputPorts cs
      else inputPorts cs := by
  simp only [inputPorts, List.filter_cons]
  by_cases h : (!c.is_control && c.is_input_edge) = true
  · rw [if_pos h, if_pos h, List.map_cons]
  · rw [if_neg h, if_neg h]

theorem phCountTerm_skip (p : Nat) (markers : List String) (c : EngineConnection)
    (cs : List EngineConnection) (h : (!c.is_control && c.is_input_edge) = false) :
    phCountTerm p markers (c :: cs) = phCountTerm p markers cs := by
  unfold phCountTerm
  rw [inputPorts_cons,
    if_neg (show ¬ ((!c.is_control && c.is_input_edge) = true) from by simp [h])]

theorem phCountTerm_input_in_markers (p : Nat) (markers : List String)
    (c : EngineConnection) (cs : List EngineConnection)
    (hc : (!c.is_control && c.is_input_edge) = true)
    (hm : mkInputPH c.port_number ∈ markers) :
    phCountTerm p markers (c :: cs) = phCountTerm p markers cs := by
  unfold phCountTerm
  rw [inputPorts_cons, if_pos hc, List.map_cons]
  by_cases hpm : mkInputPH p ∈ markers
  · rw [if_pos hpm, if_pos hpm]
  · rw [if_neg hpm, if_neg hpm]
    have hne : mkInputPH p ≠ mkInputPH c.port_number := fun he => hpm (he ▸ hm)
    by_cases hr : mkInputPH p ∈ (inputPorts cs).map mkInputPH
    · rw [if_pos (List.mem_cons_of_mem _ hr), if_pos hr]
    · rw [if_neg (show ¬ mkInputPH p ∈
          mkInputPH c.port_number :: (inputPorts cs).map mkInputPH from by
        intro hmem
        rcases List.mem_cons.mp hmem with he | he
        · exact hne he
        · exact hr he), if_neg hr]

theorem phCountTerm_fresh_input (p : Nat) (markers : List String)
    (c : EngineConnection) (cs : List EngineConnection)
    (hc : (!c.is_control && c.is_input_edge) = true)
    (hm : mkInputPH c.port_number ∉ markers) :
    phCountTerm p markers (c :: cs) =
      (if mkInputPH p = mkInputPH c.port_number ∧ mkInputPH p ∉ markers then 1 else 0)
        + phCountTerm p (mkInputPH c.port_number :: markers) cs := by
  unfold phCountTerm
  rw [inputPorts_cons, if_pos hc, List.map_cons]
  by_cases hpm : mkInputPH p ∈ markers
  · rw [if_pos hpm, if_pos (List.mem_cons_of_mem _ hpm),
      if_neg (show ¬ (mkInputPH p = mkInputPH c.port_number ∧
        mkInputPH p ∉ markers) from fun hand => hand.2 hpm)]
  · rw [if_neg hpm]
    by_cases heq : mkInputPH p = mkInputPH c.port_number
    · rw [if_pos (show mkInputPH p ∈
          mkInputPH c.port_number :: (inputPorts cs).map mkInputPH from by
        rw [heq]; exact List.mem_cons_self _ _),
        if_pos (show mkInputPH p ∈ mkInputPH c.port_number :: markers from by
          rw [heq]; exact List.mem_cons_self _ _),
        if_pos ⟨heq, hpm⟩]
    · rw [if_neg (show ¬ mkInputPH p ∈ mkInputPH c.port_number :: markers from by
        intro hmem
        rcases List.mem_cons.mp hmem with he | he
        · exact heq he
        · exact hpm he),
        if_neg (show ¬ (mkInputPH p = mkInputPH c.port_number ∧
          mkInputPH p ∉ markers) from fun hand => heq hand.1)]
      by_cases hr : mkInputPH p ∈ (inputPorts cs).map mkInputPH
      · rw [if_pos (List.mem_cons_of_mem _ hr), if_pos hr]
      · rw [if_neg (show ¬ mkInputPH p ∈
            mkInputPH c.port_number :: (inputPorts cs).map mkInputPH from by
          intro hmem
          rcases List.mem_cons.mp hmem with he | he
          · exact heq he
          · exact hr he), if_neg hr]

theorem phCountTerm_fresh_output (p : Nat) (markers : List String)
    (c : EngineConnection) (cs : List EngineConnection)
    (hctl : c.is_control = false) (hedge : c.is_input_edge = false) :
    phCountTerm p markers (c :: cs) =
      phCountTerm p (mkOutputPH c.port_number :: markers) cs := by
  unfold phCountTerm
  rw [inputPorts_cons,
    if_neg (show ¬ ((!c.is_control && c.is_input_edge) = true) from by simp [hedge])]
  by_cases hpm : mkInputPH p ∈ markers
  · rw [if_pos hpm, if_pos (List.mem_cons_of_mem _ hpm)]
  · rw [if_neg hpm,
      if_neg (show ¬ mkInputPH p ∈ mkOutputPH c.port_number :: markers from by
        intro hmem
        rcases List.mem_cons.mp hmem with he | he
        · exact mkOutputPH_ne_mkInputPH c.port_number p he.symm
        · exact hpm he)]

theorem countInputPH_append_single (p : Nat) (seg : List NodeDef) (nd : NodeDef) :
    countInputPH p (seg ++ [nd]) = countInputPH p seg +
      (if (nd.name == mkInputPH p && nd.op == "Placeholder") = true then 1 else 0) := by
  simp [countInputPH, List.countP_append, List.countP_cons]

theorem addMarkerNodes_count (graph : List (Nat × NodeDef)) (p : Nat) :
    ∀ (conns : List EngineConnection) (markers : List String) (seg : List NodeDef)
      (m' : List String) (s' : List NodeDef),
      addMarkerNodes graph conns markers seg = .ok (m', s') →
      countInputPH p s' = countInputPH p seg + phCountTerm p markers conns := by
  intro conns
  induction conns with
  | nil =>
    intro markers seg m' s' h
    simp only [addMarkerNodes] at h
    cases h
    simp [phCountTerm, inputPorts]
  | cons conn rest ih =>
    intro markers seg m' s' h
    simp only [addMarkerNodes] at h
    by_cases hctl : conn.is_control = true
    · rw [if_pos hctl] at h
      rw [ih markers seg m' s' h, phCountTerm_skip p markers conn rest (by simp [hctl])]
    · rw [if_neg hctl] at h
      have hctl' : conn.is_control = false := by
        cases hcc : conn.is_control
        · rfl
        · exact absurd hcc hctl
      cases hlk : graph.lookup conn.outside_id with
      | none => rw [hlk] at h; cases h
      | some nd0 =>
        rw [hlk] at h
        simp only at h
        by_cases hedge : conn.is_input_edge = true
        · simp only [hedge, eq_self_iff_true, if_true] at h
          have hcc : (!conn.is_control && conn.is_input_edge) = true := by
            simp [hctl', hedge]
          by_cases hmem : (markers.contains (mkInputPH conn.port_number)) = true
          · rw [if_pos hmem] at h
            rw [ih markers seg m' s' h,
              phCountTerm_input_in_markers p markers conn rest hcc (by simpa using hmem)]
          · rw [if_neg hmem] at h
            have hnin : mkInputPH conn.port_number ∉ markers := by
              intro hin; exact hmem (by simpa using hin)
            rw [ih _ _ m' s' h, countInputPH_append_single,
              phCountTerm_fresh_input p markers conn rest hcc hnin]
            by_cases heq : mkInputPH conn.port_number = mkInputPH p
            · have hpm : mkInputPH p ∉ markers := heq ▸ hnin
              rw [if_pos (show (mkInputPH conn.port_number == mkInputPH p &&
                  ("Placeholder" == "Placeholder")) = true from by simp [heq]),
                if_pos ⟨heq.symm, hpm⟩]
              omega
            · rw [if_neg (show ¬ ((mkInputPH conn.port_number == mkInputPH p &&
                  ("Placeholder" == "Placeholder")) = true) from by
                simp only [Bool.and_eq_true, beq_iff_eq]
                exact fun hand => heq hand.1),
                if_neg (show ¬ (mkInputPH p = mkInputPH conn.port_number ∧
                  mkInputPH p ∉ markers) from fun hand => heq hand.1.symm)]
              omega
        · have hedge' : conn.is_input_edge = false := by
            cases hee : conn.is_input_edge
            · rfl
            · exact absurd hee hedge
          simp only [hedge', Bool.false_eq_true, if_false] at h
          by_cases hmem : (markers.contains (mkOutputPH conn.port_number)) = true
          · rw [if_pos hmem] at h
            rw [ih markers seg m' s' h,
              phCountTerm_skip p markers conn rest (by simp [hedge'])]
          · rw [if_neg hmem] at h
            rw [ih _ _ m' s' h, countInputPH_append_single,
              phCountTerm_fresh_output p markers conn rest hctl' hedge']
            rw [if_neg (show ¬ ((mkOutputPH conn.port_number == mkInputPH p &&
                ("Identity" == "Placeholder")) = true) from by simp)]
            omega

theorem phCountTerm_nil_markers (p : Nat) (conns : List EngineConnection)
    (hp : p ∈ inputPorts conns) : phCountTerm p [] conns = 1 := by
  unfold phCountTerm
  rw [if_neg (List.not_mem_nil _), if_pos (List.mem_map_of_mem _ hp)]

theorem countP_set_preserve (pred : NodeDef → Bool) :
    ∀ (seg : List NodeDef) (idx : Nat) (nd' : NodeDef),
      (∀ nd, seg[idx]? = some nd → pred nd' = pred nd) →
      (seg.set idx nd').countP pred = seg.countP pred := by
  intro seg
  induction seg with
  | nil => intro idx nd' _; simp
  | cons a as ih =>
    intro idx nd' h
    cases idx with
    | zero =>
      simp only [List.set_cons_zero, List.countP_cons]
      rw [h a (by simp)]
    | succ n =>
      simp only [List.set_cons_succ, List.countP_cons]
      rw [ih n nd' (fun nd hnd => h nd (by simpa using hnd))]

theorem rewriteInputEdges_count (m : Nat → Nat) (p : Nat) :
    ∀ (conns : List EngineConnection) (seg : List NodeDef),
      countInputPH p (rewriteInputEdges m conns seg) = countInputPH p seg := by
  intro conns
  induction conns with
  | nil => intro seg; rfl
  | cons c cs ih =>
    intro seg
    unfold rewriteInputEdges
    by_cases hc : (c.is_control || !c.is_input_edge) = true
    · rw [if_pos hc]
      exact ih seg
    · rw [if_neg hc]
      cases hidx : seg[m c.inside_id]? with
      | none => simp only [hidx]; exact ih seg
      | some nd =>
        simp only [hidx]
        rw [ih _]
        exact countP_set_preserve _ seg (m c.inside_id) _
          (fun nd2 hnd2 => by rw [hidx] at hnd2; cases hnd2; rfl)

theorem stripOutsideInputs_nameOp (names : List String) :
    ∀ (seg seg' : List NodeDef), stripOutsideInputs names seg = .ok seg' →
      seg'.map (fun nd => (nd.name, nd.op)) = seg.map (fun nd => (nd.name, nd.op)) := by
  intro seg
  induction seg with
  | nil =>
    intro seg' h
    simp only [stripOutsideInputs] at h
    cases h
    rfl
  | cons nd rest ih =>
    intro seg' h
    simp only [stripOutsideInputs] at h
    cases hf : filterNodeInputs names nd.input with
    | error e => rw [hf] at h; cases h
    | ok inp =>
      rw [hf] at h
      cases hs : stripOutsideInputs names rest with
      | error e => rw [hs] at h; cases h
      | ok l =>
        rw [hs] at h
        cases h
        simp only [List.map_cons]
        rw [ih l hs]

theorem countInputPH_of_nameOp_eq {seg seg' : List NodeDef}
    (h : seg'.map (fun nd => (nd.name, nd.op)) = seg.map (fun nd => (nd.name, nd.op)))
    (p : Nat) : countInputPH p seg' = countInputPH p seg := by
  unfold countInputPH
  have e1 : seg'.countP (fun nd => nd.name == mkInputPH p && nd.op == "Placeholder")
      = (seg'.map (fun nd => (nd.name, nd.op))).countP
          (fun x => x.1 == mkInputPH p && x.2 == "Placeholder") := by
    rw [List.countP_map]
    rfl
  have e2 : seg.countP (fun nd => nd.name == mkInputPH p && nd.op == "Placeholder")
      = (seg.map (fun nd => (nd.name, nd.op))).countP
          (fun x => x.1 == mkInputPH p && x.2 == "Placeholder") := by
    rw [List.countP_map]
    rfl
  rw [e1, e2, h]

theorem filterNodeInputs_keep (names : List String) :
    ∀ inputs, (∀ s ∈ inputs, badInput names s = false) →
      filterNodeInputs names inputs = .ok (inputs.filter (keepInput names)) := by
  intro inputs
  induction inputs with
  | nil => intro _; rfl
  | cons s rest ih =>
    intro h
    have hs := h s (List.mem_cons_self _ _)
    have hrest : ∀ x ∈ rest, badInput names x = false :=
      fun x hx => h x (List.mem_cons_of_mem _ hx)
    unfold filterNodeInputs
    by_cases hk : keepInput names s = true
    · rw [if_neg (show ¬ (¬ names.contains (parseTensorName s).1 = true ∧
          ¬ strStartsWith (parseTensorName s).1 kInputPHName = true) from by
        unfold keepInput at hk
        rcases Bool.or_eq_true_iff.mp hk with h1 | h1
        · exact fun hand => hand.1 h1
        · exact fun hand => hand.2 h1)]
      rw [ih hrest]
      rw [List.filter_cons, if_pos hk]
    · have hk' : keepInput names s = false := by
        cases hkk : keepInput names s
        · rfl
        · exact absurd hkk hk
      have hcond : ¬ names.contains (parseTensorName s).1 = true ∧
          ¬ strStartsWith (parseTensorName s).1 kInputPHName = true := by
        unfold keepInput at hk'
        constructor
        · intro hcc
          rw [hcc] at hk'
          simp at hk'
        · intro hcc
          rw [hcc] at hk'
          simp at hk'
      rw [if_pos hcond]
      have hport : ((parseTensorName s).2 == -1) = true := by
        unfold badInput at hs
        rw [hk'] at hs
        simpa using hs
      rw [if_pos hport, ih hrest, List.filter_cons,
        if_neg (show ¬ keepInput names s = true from by rw [hk']; simp)]

theorem filterNodeInputs_bad (names : List String) :
    ∀ inputs s, s ∈ inputs → badInput names s = true →
      filterNodeInputs names inputs = .error .invalidArgument := by
  intro inputs
  induction inputs with
  | nil => intro s hs _; cases hs
  | cons x rest ih =>
    intro s hs hbad
    unfold filterNodeInputs
    by_cases hkx : keepInput names x = true
    · rw [if_neg (show ¬ (¬ names.contains (parseTensorName x).1 = true ∧
          ¬ strStartsWith (parseTensorName x).1 kInputPHName = true) from by
        unfold keepInput at hkx
        rcases Bool.or_eq_true_iff.mp hkx with h1 | h1
        · exact fun hand => hand.1 h1
        · exact fun hand => hand.2 h1)]
      have hsrest : s ∈ rest := by
        rcases List.mem_cons.mp hs with he | he
        · subst he
          unfold badInput at hbad
          rw [hkx] at hbad
          simp at hbad
        · exact he
      rw [ih s hsrest hbad]
    · have hkx' : keepInput names x = false := by
        cases hkk : keepInput names x
        · rfl
        · exact absurd hkk hkx
      rw [if_pos (show ¬ names.contains (parseTensorName x).1 = true ∧
          ¬ strStartsWith (parseTensorName x).1 kInputPHName = true from by
        unfold keepInput at hkx'
        constructor
        · intro hcc; rw [hcc] at hkx'; simp at hkx'
        · intro hcc; rw [hcc] at hkx'; simp at hkx')]
      by_cases hpx : ((parseTensorName x).2 == -1) = true
      · rw [if_pos hpx]
        have hsrest : s ∈ rest := by
          rcases List.mem_cons.mp hs with he | he
          · subst he
            unfold badInput at hbad
            rw [hpx] at hbad
            simp at hbad
          · exact he
        exact ih s hsrest hbad
      · rw [if_neg hpx]

/-- **C8.** For every connection list processed by
`ConvertSegmentToGraphDef`: for each distinct non-control input
connection port number, the produced fragment contains exactly one
Placeholder node named input-prefix + port number, no matter how many
connections share that port (repeated ports reuse the same placeholder);
a control-only input reference pointing outside the segment is removed
from the copied node rather than rewritten (phase-4 filter
characterization, plus the whole-pipeline chain demonstration where
`C`'s `^ctrl` reference is dropped); and a non-control outside input
reference that is not a recognized placeholder name makes the whole
extraction fail with InvalidArgument (filter characterization plus the
whole-pipeline `stray` demonstration). -/
theorem segment_extraction (graph : List (Nat × NodeDef)) (names : List String)
    (ids : List Nat) (conns : List EngineConnection) (seg : List NodeDef)
    (scope : String) (p : Nat)
    (hok : convertSegmentToGraphDef graph names ids conns = .ok (seg, scope))
    (hids : ∀ id ∈ ids, ∃ nd, graph.lookup id = some nd ∧
      strStartsWith nd.name kInputPHName = false)
    (hp : p ∈ inputPorts conns) :
    countInputPH p seg = 1 ∧
    (∀ inputs, (∀ s ∈ inputs, badInput names s = false) →
      filterNodeInputs names inputs = .ok (inputs.filter (keepInput names))) ∧
    (∀ inputs s, s ∈ inputs → badInput names s = true →
      filterNodeInputs names inputs = .error .invalidArgument) ∧
    convertSegmentToGraphDef demoGraph ["A", "B", "C"] [1, 2, 3] demoConns
      = .ok (demoFragment, "") ∧
    convertSegmentToGraphDef demoGraphStray ["A", "B", "C"] [1, 2, 3] demoConns
      = .error .invalidArgument := by
  refine ⟨?_, filterNodeInputs_keep names, filterNodeInputs_bad names, rfl, rfl⟩
  unfold convertSegmentToGraphDef at hok
  cases ham : addMarkerNodes graph conns [] [] with
  | error e => rw [ham] at hok; cases hok
  | ok ms =>
    obtain ⟨markers1, seg1⟩ := ms
    rw [ham] at hok
    simp only at hok
    cases hstrip : stripOutsideInputs names
        (rewriteInputEdges (oldToNewId ids seg1.length) conns
          (seg1 ++ ids.map (fun id => (graph.lookup id).getD emptyNode))) with
    | error e => rw [hstrip] at hok; cases hok
    | ok seg4 =>
      rw [hstrip] at hok
      cases hok
      have h1 : countInputPH p seg1 = 1 := by
        have := addMarkerNodes_count graph p conns [] [] markers1 seg1 ham
        rw [this, phCountTerm_nil_markers p conns hp]
        rfl
      have h2 : countInputPH p
          (seg1 ++ ids.map (fun id => (graph.lookup id).getD emptyNode)) = 1 := by
        unfold countInputPH
        rw [List.countP_append]
        have hz : (ids.map (fun id => (graph.lookup id).getD emptyNode)).countP
            (fun nd => nd.name == mkInputPH p && nd.op == "Placeholder") = 0 := by
          rw [List.countP_eq_zero]
          intro nd hnd
          rcases List.mem_map.mp hnd with ⟨id, hid, hnd2⟩
          rcases hids id hid with ⟨nd3, hlk, hpre⟩
          rw [hlk] at hnd2
          simp only [Option.getD_some] at hnd2
          subst hnd2
          simp only [Bool.and_eq_true, beq_iff_eq, not_and]
          intro hname
          exact absurd hname (ne_mkInputPH_of_not_startsWith hpre p)
        rw [hz]
        exact h1
      have h3 := rewriteInputEdges_count (oldToNewId ids seg1.length) p conns
        (seg1 ++ ids.map (fun id => (graph.lookup id).getD emptyNode))
      rw [countInputPH_of_nameOp_eq (stripOutsideInputs_nameOp names _ _ hstrip) p,
        h3]
      exact h2

/-- Witness for `segment_extraction` at the three-node chain: the
extraction succeeds, and the fragment has exactly one input placeholder
for port 0. -/
theorem segment_extraction_witness :
    convertSegmentToGraphDef demoGraph ["A", "B", "C"] [1, 2, 3] demoConns
        = .ok (demoFragment, "") ∧
      countInputPH 0 demoFragment = 1 := by
  have hids : ∀ id ∈ ([1, 2, 3] : List Nat), ∃ nd, demoGraph.lookup id = some nd ∧
      strStartsWith nd.name kInputPHName = false := by
    intro id hid
    fin_cases hid
    · exact ⟨_, rfl, rfl⟩
    · exact ⟨_, rfl, rfl⟩
    · exact ⟨_, rfl, rfl⟩
  have h := segment_extraction demoGraph ["A", "B", "C"] [1, 2, 3] demoConns
    demoFragment "" 0 rfl hids (by decide)
  exact ⟨h.2.2.2.1, h.1⟩

/-- Witness for `add_uniform_scale_end_to_end` at batch size `N = 5`. -/
theorem add_uniform_scale_end_to_end_witness :
    (0 : Int) ≤ 5 ∧
      (addDemoConverter 5).convertNode (fun _ => false)
          (fun _ _ _ _ => ConvResult.err .unimplemented []) addDemoNode =
        .ok { addDemoConverter 5 with
            trtTensors := (addDemoConverter 5).trtTensors ++
              [("my_add", .tensor ⟨[3, 4, 4], some "my_add"⟩ 5)] }
          [.scale .kUNIFORM] :=
  ⟨by decide,
    (add_uniform_scale_end_to_end 5 (by decide)
      (fun _ _ _ _ => ConvResult.err .unimplemented [])).2.2.2.1⟩

end TfTrt
